import Mathlib

/-
Verification of the Payment Tracker filtering, aggregation and
timezone-normalization logic.

Modelling conventions, used throughout:

* UTC instants are whole minutes since the Unix epoch (`Int`); payment
  amounts are exact cents (`Int`), matching the store's numeric(10, 2)
  column.
* A date key `YYYY-MM-DD` is a `DateKey` triple; comparison of canonical
  zero-padded key strings is their lexicographic triple order `keyLe`.
* JavaScript `Date` semantics are embedded through proleptic-Gregorian
  day-number conversions `daysFromCivil` / `civilFromDays` (an
  era / century / 4-year / year cascade).
* The browser's local zone is modelled as a fixed UTC offset `L` in minutes
  (local wall clock = UTC + L); the display zone America/New_York is the
  DST-aware `etOffset` (-300 or -240 minutes, post-2007 US rules), so a
  US-Eastern browser session corresponds to `L = -300` or `L = -240`.
* Fallible store and network calls are `Except` values supplied to the
  handlers; each handler is the state transition it performs on the
  payments list.
-/

structure DateKey where
  y : Int
  m : Int
  d : Int
deriving DecidableEq, Repr

def leapYear (y : Int) : Prop := y % 4 = 0 ∧ (y % 100 ≠ 0 ∨ y % 400 = 0)

instance : DecidablePred leapYear := fun _ => by unfold leapYear; infer_instance

def daysInMonth (y m : Int) : Int :=
  if m = 2 then (if leapYear y then 29 else 28)
  else if m = 4 ∨ m = 6 ∨ m = 9 ∨ m = 11 then 30 else 31

def ValidKey (k : DateKey) : Prop :=
  1 ≤ k.m ∧ k.m ≤ 12 ∧ 1 ≤ k.d ∧ k.d ≤ daysInMonth k.y k.m

instance : DecidablePred ValidKey := fun _ => by unfold ValidKey; infer_instance

def daysFromCivil (k : DateKey) : Int :=
  let yy := if k.m ≤ 2 then k.y - 1 else k.y
  let era := yy / 400
  let yoe := yy - era * 400
  let mp := (k.m + 9) % 12
  let doy := (153 * mp + 2) / 5 + k.d - 1
  let doe := yoe * 365 + yoe / 4 - yoe / 100 + doy
  era * 146097 + doe - 719468

def eraOfDays (z : Int) : Int := (z + 719468) / 146097

def doeOfDays (z : Int) : Int := z + 719468 - eraOfDays z * 146097

/-- century within the 400-year era, clamped to 3 (the last century is one day longer). -/
def centOf (doe : Int) : Int := if doe / 36524 > 3 then 3 else doe / 36524

def dceOf (doe : Int) : Int := doe - centOf doe * 36524

/-- 4-year block within the century. -/
def quadOf (doe : Int) : Int := dceOf doe / 1461

def dqOf (doe : Int) : Int := dceOf doe - quadOf doe * 1461

/-- year within the 4-year block, clamped to 3 (the last year may be a leap year). -/
def yiqOf (doe : Int) : Int := if dqOf doe / 365 > 3 then 3 else dqOf doe / 365

/-- year-of-era from day-of-era via century / 4-year / year cascade with clamping. -/
def yoeOfDoe (doe : Int) : Int := centOf doe * 100 + quadOf doe * 4 + yiqOf doe

def doyOfDoe (doe : Int) : Int :=
  doe - (yoeOfDoe doe * 365 + yoeOfDoe doe / 4 - yoeOfDoe doe / 100)

def civilFromDays (z : Int) : DateKey :=
  let yoe := yoeOfDoe (doeOfDays z)
  let doy := doyOfDoe (doeOfDays z)
  let y := yoe + eraOfDays z * 400
  let mp := (5 * doy + 2) / 153
  let d := doy - (153 * mp + 2) / 5 + 1
  let m := if mp < 10 then mp + 3 else mp - 9
  ⟨if m ≤ 2 then y + 1 else y, m, d⟩

/-- Calendar successor of a date: roll day, then month, then year. -/
def calNextDay (k : DateKey) : DateKey :=
  if k.d < daysInMonth k.y k.m then ⟨k.y, k.m, k.d + 1⟩
  else if k.m < 12 then ⟨k.y, k.m + 1, 1⟩
  else ⟨k.y + 1, 1, 1⟩

/-- Calendar predecessor of a date. -/
def calPrevDay (k : DateKey) : DateKey :=
  if 1 < k.d then ⟨k.y, k.m, k.d - 1⟩
  else if 1 < k.m then ⟨k.y, k.m - 1, daysInMonth k.y (k.m - 1)⟩
  else ⟨k.y - 1, 12, 31⟩

/-- Strict lexicographic order on date triples (the order of YYYY-MM-DD strings
for canonical zero-padded keys). -/
def keyLt (a b : DateKey) : Prop :=
  a.y < b.y ∨ (a.y = b.y ∧ (a.m < b.m ∨ (a.m = b.m ∧ a.d < b.d)))

def keyLe (a b : DateKey) : Prop := keyLt a b ∨ a = b

instance : DecidableRel keyLt := fun _ _ => by unfold keyLt; infer_instance

instance : DecidableRel keyLe := fun _ _ => by unfold keyLe; infer_instance

/-- Weekday of a day number, 0 = Sunday (day 0, 1970-01-01, was a Thursday). -/
def weekday (z : Int) : Int := (z + 4) % 7

/-- First Sunday on or after the given day number. -/
def firstSundayOnOrAfter (z : Int) : Int := z + (7 - weekday z) % 7

/-- Day number of the second Sunday of March of year `y` (US DST start day). -/
def secondSundayMarch (y : Int) : Int := firstSundayOnOrAfter (daysFromCivil ⟨y, 3, 1⟩) + 7

/-- Day number of the first Sunday of November of year `y` (US DST end day). -/
def firstSundayNovember (y : Int) : Int := firstSundayOnOrAfter (daysFromCivil ⟨y, 11, 1⟩)

/-- UTC minute `t` falls in US Eastern daylight-saving time (post-2007 rule:
from the second Sunday of March 2:00 EST = 07:00 UTC to the first Sunday of
November 2:00 EDT = 06:00 UTC). -/
def inDST (t : Int) : Prop :=
  1440 * secondSundayMarch (civilFromDays (t / 1440)).y + 420 ≤ t ∧
  t < 1440 * firstSundayNovember (civilFromDays (t / 1440)).y + 360

instance : DecidablePred inDST := fun _ => by unfold inDST; infer_instance

/-- Offset of the America/New_York zone at UTC minute `t`, in minutes
(ET wall clock = UTC + offset): -300 for EST, -240 for EDT. -/
def etOffset (t : Int) : Int := if inDST t then -240 else -300

/-- `getETDateString` (supabase/functions/generate-payment-report/index.ts):
the calendar date of a UTC instant in the America/New_York zone, as a date key. -/
def getETDateString (t : Int) : DateKey := civilFromDays ((t + etOffset t) / 1440)

/-- Payment record (src/lib/supabase.ts `Payment`): amounts in cents,
timestamps as whole minutes since the Unix epoch (UTC). -/
structure Payment where
  id : String
  client_name : String
  payment_method : String
  amount_paid : Int
  timestamp : Int
deriving DecidableEq, Repr

/-- Local calendar date of an instant in a browser zone of fixed offset `L`
minutes (local wall clock = UTC + L): models `getFullYear/getMonth/getDate`. -/
def jsLocalTriple (L t : Int) : DateKey := civilFromDays ((t + L) / 1440)

/-- `new Date(y, m, d)`: instant of local midnight of the given civil date. -/
def jsMakeLocalDate (L : Int) (k : DateKey) : Int := 1440 * daysFromCivil k - L

/-- Parsing `YYYY-MM-DDTHH:mm:ss` (no zone suffix) as browser-local time. -/
def jsParseLocal (L : Int) (k : DateKey) (minuteOfDay : Int) : Int :=
  1440 * daysFromCivil k + minuteOfDay - L

/-- Client-side filter criteria (App.tsx state): `none` models the empty
string for the date fields, the empty string means "all methods". -/
structure Criteria where
  searchTerm : String
  dateFrom : Option DateKey
  dateTo : Option DateKey
  paymentMethod : String
deriving DecidableEq, Repr

/-- `payment.client_name.toLowerCase().includes(searchTerm.toLowerCase())`. -/
def matchesSearch (searchTerm clientName : String) : Bool :=
  decide ((searchTerm.toList.map Char.toLower) <:+: (clientName.toList.map Char.toLower))

/-- The predicate of `filteredPayments` (App.tsx lines 96-128), in a browser
zone of fixed offset `L`. -/
def clientKeep (L : Int) (c : Criteria) (p : Payment) : Bool :=
  let search := matchesSearch c.searchTerm p.client_name
  let matchesMethod := (c.paymentMethod == "") || (p.payment_method == c.paymentMethod)
  if c.dateFrom.isSome || c.dateTo.isSome then
    let paymentDateOnly := jsMakeLocalDate L (jsLocalTriple L p.timestamp)
    let matchesDateFrom :=
      match c.dateFrom with
      | none => true
      | some k => decide (jsMakeLocalDate L (jsLocalTriple L (jsParseLocal L k 0)) ≤ paymentDateOnly)
    let matchesDateTo :=
      match c.dateTo with
      | none => true
      | some k => decide (paymentDateOnly ≤ jsMakeLocalDate L (jsLocalTriple L (jsParseLocal L k 1439)))
    if !matchesDateFrom || !matchesDateTo then false
    else search && matchesMethod
  else search && matchesMethod

/-- `filteredPayments` (App.tsx): the visible subset, preserving store order. -/
def filteredPayments (L : Int) (c : Criteria) (payments : List Payment) : List Payment :=
  payments.filter (clientKeep L c)

/-- The predicate of the report filter (index.ts lines 95-115); date-key
comparison of `YYYY-MM-DD` strings is their lexicographic triple order. -/
def serverKeep (dateFrom dateTo : DateKey) (paymentMethod : String) (p : Payment) : Bool :=
  let paymentETDate := getETDateString p.timestamp
  (decide (keyLe dateFrom paymentETDate) && decide (keyLe paymentETDate dateTo)) &&
    ((paymentMethod == "") || (p.payment_method == paymentMethod))

def serverFilteredPayments (dateFrom dateTo : DateKey) (paymentMethod : String)
    (rows : List Payment) : List Payment :=
  rows.filter (serverKeep dateFrom dateTo paymentMethod)

/-- Per-method and total sums (SummaryCards.tsx / index.ts `DailySummary`). -/
structure Summary where
  cash : Int
  zelle : Int
  check : Int
  bookerCC : Int
  total : Int
deriving DecidableEq, Repr

/-- One step of the SummaryCards reduce (SummaryCards.tsx lines 20-43). -/
def summaryStep (acc : Summary) (p : Payment) : Summary :=
  let amount := p.amount_paid
  let acc := { acc with total := acc.total + amount }
  if p.payment_method == "Cash" then { acc with cash := acc.cash + amount }
  else if p.payment_method == "Zelle" then { acc with zelle := acc.zelle + amount }
  else if p.payment_method == "Check" then { acc with check := acc.check + amount }
  else if p.payment_method == "Booker CC" then { acc with bookerCC := acc.bookerCC + amount }
  else acc

/-- Dashboard summary (SummaryCards.tsx `summary`). -/
def summaryOf (payments : List Payment) : Summary :=
  payments.foldl summaryStep ⟨0, 0, 0, 0, 0⟩

/-- One step of the report summary forEach (index.ts lines 128-146). -/
def reportSummaryStep (acc : Summary) (p : Payment) : Summary :=
  let amount := p.amount_paid
  let acc := { acc with total := acc.total + amount }
  if p.payment_method == "Cash" then { acc with cash := acc.cash + amount }
  else if p.payment_method == "Zelle" then { acc with zelle := acc.zelle + amount }
  else if p.payment_method == "Check" then { acc with check := acc.check + amount }
  else if p.payment_method == "Booker CC" then { acc with bookerCC := acc.bookerCC + amount }
  else acc

/-- Report summary (index.ts lines 120-146). -/
def reportSummaryOf (rows : List Payment) : Summary :=
  rows.foldl reportSummaryStep ⟨0, 0, 0, 0, 0⟩

/-- A wall-clock value in `datetime-local` form (minute precision). -/
structure LocalDateTime where
  date : DateKey
  minuteOfDay : Int
deriving DecidableEq, Repr

/-- `getDateTimeLocalValueInET` (utils/timezone.ts lines 58-73): ET wall clock
of a UTC instant. -/
def getDateTimeLocalValueInET (t : Int) : LocalDateTime :=
  ⟨civilFromDays ((t + etOffset t) / 1440), (t + etOffset t) % 1440⟩

/-- `convertLocalDateTimeToUTC` (utils/timezone.ts lines 75-83), in a browser
zone of fixed offset `L`: parse the string as browser-local time, reparse its
UTC rendering as browser-local time, and shift by the difference. -/
def convertLocalDateTimeToUTC (L : Int) (w : LocalDateTime) : Int :=
  let etDate := 1440 * daysFromCivil w.date + w.minuteOfDay - L
  let utcDate := 1440 * daysFromCivil (civilFromDays (etDate / 1440)) + etDate % 1440 - L
  let offset := etDate - utcDate
  etDate + offset

/-- The date computed by `goToPreviousDay` (SearchFilter.tsx lines 399-407) in
a browser zone of fixed offset `L`: parse `dateFrom + "T12:00:00"` as local
time, move the local day-of-month back one, take the UTC date of the result. -/
def previousDayKey (L : Int) (k : DateKey) : DateKey :=
  let date := jsParseLocal L k 720
  let triple := jsLocalTriple L date
  let date2 := 1440 * daysFromCivil ⟨triple.y, triple.m, triple.d - 1⟩ + (date + L) % 1440 - L
  civilFromDays (date2 / 1440)

/-- The date computed by `goToNextDay` (SearchFilter.tsx lines 412-420). -/
def nextDayKey (L : Int) (k : DateKey) : DateKey :=
  let date := jsParseLocal L k 720
  let triple := jsLocalTriple L date
  let date2 := 1440 * daysFromCivil ⟨triple.y, triple.m, triple.d + 1⟩ + (date + L) % 1440 - L
  civilFromDays (date2 / 1440)

/-- `goToPreviousDay` on the filter state: a no-op when dateFrom is empty,
otherwise both bounds are set to the computed date. -/
def goToPreviousDay (L : Int) (c : Criteria) : Criteria :=
  match c.dateFrom with
  | none => c
  | some k => { c with dateFrom := some (previousDayKey L k), dateTo := some (previousDayKey L k) }

def goToNextDay (L : Int) (c : Criteria) : Criteria :=
  match c.dateFrom with
  | none => c
  | some k => { c with dateFrom := some (nextDayKey L k), dateTo := some (nextDayKey L k) }

/-- `loadPayments` (App.tsx lines 74-89): on success replace the list, on
failure leave the current list unchanged. -/
def loadPayments (current : List Payment) (listResult : Except String (List Payment)) :
    List Payment :=
  match listResult with
  | .ok data => data
  | .error _ => current

/-- `handleAddPayment` (App.tsx lines 135-155): a failed insert throws before
the reload, so the state is untouched; a successful insert is followed by a
full reload. -/
def handleAddPayment (current : List Payment) (insertResult : Except String Unit)
    (listResult : Except String (List Payment)) : List Payment :=
  match insertResult with
  | .error _ => current
  | .ok _ => loadPayments current listResult

/-- `handleUpdatePayment` (App.tsx lines 162-185); a no-op when no payment is
being edited. -/
def handleUpdatePayment (editingPayment : Option Payment) (current : List Payment)
    (updateResult : Except String Unit) (listResult : Except String (List Payment)) :
    List Payment :=
  match editingPayment with
  | none => current
  | some _ =>
    match updateResult with
    | .error _ => current
    | .ok _ => loadPayments current listResult

/-- `handleDeletePayment` (App.tsx lines 192-203). -/
def handleDeletePayment (current : List Payment) (deleteResult : Except String Unit)
    (listResult : Except String (List Payment)) : List Payment :=
  match deleteResult with
  | .error _ => current
  | .ok _ => loadPayments current listResult

/-- A `url.searchParams.get` result for a required date parameter: absent
(`null`), present but empty (`""`), or a well-formed date key. -/
inductive DateParam
  | absent
  | empty
  | val (k : DateKey)
deriving DecidableEq, Repr

/-- JavaScript truthiness of a date parameter (`!dateFrom`): null and the
empty string are falsy. -/
def DateParam.falsy : DateParam → Bool
  | .absent => true
  | .empty => true
  | .val _ => false

inductive HttpMethod
  | OPTIONS
  | GET
deriving DecidableEq, Repr

structure ReportRequest where
  method : HttpMethod
  dateFrom : DateParam
  dateTo : DateParam
  paymentMethod : Option String
deriving Repr

/-- Response bodies the report endpoint can produce. -/
inductive ResponseBody
  | empty
  | missingParamsError (error : String)
  | internalError (error : String) (dateFrom : DateParam) (dateTo : DateParam)
  | htmlReport (payments : List Payment) (summary : Summary)
deriving Repr

structure HttpResponse where
  status : Nat
  contentType : Option String
  body : ResponseBody
deriving Repr

/-- The `Deno.serve` handler of generate-payment-report/index.ts, with the
database read abstracted as an `Except` (the catch block turns a thrown
database error into a 500 that echoes the date parameters). -/
def reportHandler (req : ReportRequest) (db : Except String (List Payment)) : HttpResponse :=
  match req.method with
  | .OPTIONS => ⟨200, none, .empty⟩
  | .GET =>
    if req.dateFrom.falsy || req.dateTo.falsy then
      ⟨400, some "application/json", .missingParamsError "dateFrom and dateTo parameters are required"⟩
    else
      match db with
      | .error e => ⟨500, some "application/json", .internalError e req.dateFrom req.dateTo⟩
      | .ok allPayments =>
        match req.dateFrom, req.dateTo with
        | .val dateFrom, .val dateTo =>
          let paymentMethod := req.paymentMethod.getD ""
          let filtered := serverFilteredPayments dateFrom dateTo paymentMethod allPayments
          ⟨200, some "text/html", .htmlReport filtered (reportSummaryOf filtered)⟩
        | _, _ => ⟨200, some "text/html", .htmlReport [] (reportSummaryOf [])⟩

/-- The download filename of `handleGenerateCurrentReport` (App.tsx lines
235-238). -/
def reportFilename (fromDate toDate : String) : String :=
  if fromDate == toDate then "payment-report-" ++ fromDate ++ ".html"
  else "payment-report-" ++ fromDate ++ "-to-" ++ toDate ++ ".html"

/-- Resolution of an empty date filter to today before a report request
(`dateFrom || getCurrentDateInET()`, App.tsx lines 211-212). -/
def resolveDate (d : String) (today : String) : String :=
  if d == "" then today else d

example : daysFromCivil ⟨1970, 1, 1⟩ = 0 := by decide
example : daysFromCivil ⟨2025, 1, 15⟩ = 20103 := by decide
example : civilFromDays 20103 = ⟨2025, 1, 15⟩ := by decide
example : civilFromDays 0 = ⟨1970, 1, 1⟩ := by decide
example : civilFromDays (-1) = ⟨1969, 12, 31⟩ := by decide
example : civilFromDays 20148 = ⟨2025, 3, 1⟩ := by decide
example : civilFromDays 20147 = ⟨2025, 2, 28⟩ := by decide
example : civilFromDays 19782 = ⟨2024, 2, 29⟩ := by decide

theorem doe_range (z : Int) : 0 ≤ doeOfDays z ∧ doeOfDays z < 146097 := by
  unfold doeOfDays eraOfDays; omega

theorem era_doe_decomp (z : Int) : z = eraOfDays z * 146097 + doeOfDays z - 719468 := by
  unfold doeOfDays; omega

/-- The cascade recovers a year-of-era in range, with day-of-year remainder in [0, 365]. -/
theorem yoe_doe_spec (doe : Int) (h0 : 0 ≤ doe) (h1 : doe < 146097) :
    0 ≤ yoeOfDoe doe ∧ yoeOfDoe doe ≤ 399 ∧ 0 ≤ doyOfDoe doe ∧ doyOfDoe doe ≤ 365 ∧
    yoeOfDoe doe * 365 + yoeOfDoe doe / 4 - yoeOfDoe doe / 100 + doyOfDoe doe = doe ∧
    (doyOfDoe doe = 365 →
      (yoeOfDoe doe + 1) % 4 = 0 ∧ ((yoeOfDoe doe + 1) % 100 ≠ 0 ∨ yoeOfDoe doe = 399)) := by
  have hc : 0 ≤ centOf doe ∧ centOf doe ≤ 3 ∧ 0 ≤ dceOf doe ∧ dceOf doe ≤ 36524 ∧
      doe = centOf doe * 36524 + dceOf doe ∧ (dceOf doe ≤ 36523 ∨ centOf doe = 3) := by
    unfold dceOf centOf; split_ifs <;> omega
  have hq : 0 ≤ quadOf doe ∧ quadOf doe ≤ 24 ∧ 0 ≤ dqOf doe ∧ dqOf doe ≤ 1460 ∧
      dceOf doe = quadOf doe * 1461 + dqOf doe := by
    unfold dqOf quadOf; omega
  have hy : 0 ≤ yiqOf doe ∧ yiqOf doe ≤ 3 ∧
      0 ≤ dqOf doe - yiqOf doe * 365 ∧ dqOf doe - yiqOf doe * 365 ≤ 365 ∧
      (dqOf doe - yiqOf doe * 365 = 365 → yiqOf doe = 3 ∧ dqOf doe = 1460) := by
    unfold yiqOf; split_ifs <;> omega
  have hdiv : (centOf doe * 100 + quadOf doe * 4 + yiqOf doe) / 4 =
        centOf doe * 25 + quadOf doe ∧
      (centOf doe * 100 + quadOf doe * 4 + yiqOf doe) / 100 = centOf doe := by
    omega
  unfold doyOfDoe yoeOfDoe
  omega

/-- Inverse direction: a (yoe, doy) pair with the leap-consistency side condition
is exactly recovered by the cascade from `doe = 365 yoe + yoe/4 - yoe/100 + doy`. -/
theorem yoe_doe_inv (yoe doy : Int) (h0 : 0 ≤ yoe) (h1 : yoe ≤ 399)
    (h2 : 0 ≤ doy)
    (h3 : doy ≤ 364 ∨ (doy = 365 ∧ (yoe + 1) % 4 = 0 ∧ ((yoe + 1) % 100 ≠ 0 ∨ yoe = 399))) :
    yoeOfDoe (yoe * 365 + yoe / 4 - yoe / 100 + doy) = yoe ∧
    doyOfDoe (yoe * 365 + yoe / 4 - yoe / 100 + doy) = doy := by
  set doe := yoe * 365 + yoe / 4 - yoe / 100 + doy with hdoe
  set c := yoe / 100 with hcdef
  set q := (yoe - 100 * c) / 4 with hqdef
  set r := yoe - 100 * c - 4 * q with hrdef
  have hcr : 0 ≤ c ∧ c ≤ 3 ∧ 0 ≤ q ∧ q ≤ 24 ∧ 0 ≤ r ∧ r ≤ 3 ∧ yoe = 100 * c + 4 * q + r := by
    omega
  have hf : doe = c * 36524 + q * 1461 + r * 365 + doy := by
    have h4 : yoe / 4 = 25 * c + q := by omega
    omega
  have hleap : doy ≤ 364 ∨ (doy = 365 ∧ r = 3 ∧ (q ≠ 24 ∨ c = 3)) := by
    omega
  have hcent : centOf doe = c := by
    unfold centOf; split_ifs <;> omega
  have hdce : dceOf doe = q * 1461 + r * 365 + doy := by
    unfold dceOf; omega
  have hquad : quadOf doe = q := by
    unfold quadOf; omega
  have hdq : dqOf doe = r * 365 + doy := by
    unfold dqOf; omega
  have hyiq : yiqOf doe = r := by
    unfold yiqOf; split_ifs <;> omega
  have h4 : yoe / 4 = 25 * c + q := by omega
  constructor
  · unfold yoeOfDoe; omega
  · unfold doyOfDoe yoeOfDoe; omega

theorem days_civil_id (z : Int) : daysFromCivil (civilFromDays z) = z := by
  have hdr := doe_range z
  have hed := era_doe_decomp z
  have hspec := yoe_doe_spec (doeOfDays z) hdr.1 hdr.2
  set doe := doeOfDays z with hdoe
  set era := eraOfDays z with hera
  set yoe := yoeOfDoe doe with hyoe
  set doy := doyOfDoe doe with hdoy
  have hmp : 0 ≤ (5 * doy + 2) / 153 ∧ (5 * doy + 2) / 153 ≤ 11 ∧
      (153 * ((5 * doy + 2) / 153) + 2) / 5 ≤ doy := by
    omega
  have hi : (yoe + era * 400) / 400 = era ∧
      yoe + era * 400 - (yoe + era * 400) / 400 * 400 = yoe := by
    omega
  have hm1 : ((5 * doy + 2) / 153 + 3 + 9) % 12 = (5 * doy + 2) / 153 := by omega
  have hm2 : ((5 * doy + 2) / 153 - 9 + 9) % 12 = (5 * doy + 2) / 153 := by omega
  simp only [civilFromDays, daysFromCivil, ← hdoe, ← hera, ← hyoe, ← hdoy]
  split_ifs <;> simp only [hm1, hm2, hi.1, add_sub_cancel_right] <;> omega

/-- `civilFromDays` at a day number presented as era/year-of-era/day-of-year. -/
theorem civilFromDays_decomp (z era yoe doy : Int)
    (hz : z = era * 146097 + (yoe * 365 + yoe / 4 - yoe / 100 + doy) - 719468)
    (h0 : 0 ≤ yoe) (h1 : yoe ≤ 399) (h2 : 0 ≤ doy)
    (h3 : doy ≤ 364 ∨ (doy = 365 ∧ (yoe + 1) % 4 = 0 ∧ ((yoe + 1) % 100 ≠ 0 ∨ yoe = 399))) :
    civilFromDays z =
      ⟨(if (if (5 * doy + 2) / 153 < 10 then (5 * doy + 2) / 153 + 3 else (5 * doy + 2) / 153 - 9) ≤ 2
         then yoe + era * 400 + 1 else yoe + era * 400),
       (if (5 * doy + 2) / 153 < 10 then (5 * doy + 2) / 153 + 3 else (5 * doy + 2) / 153 - 9),
       doy - (153 * ((5 * doy + 2) / 153) + 2) / 5 + 1⟩ := by
  have hera : eraOfDays z = era := by
    unfold eraOfDays; omega
  have hdoe : doeOfDays z = yoe * 365 + yoe / 4 - yoe / 100 + doy := by
    unfold doeOfDays; rw [hera]; omega
  have hio := yoe_doe_inv yoe doy h0 h1 h2 h3
  simp only [civilFromDays, hdoe, hera, hio.1, hio.2]

set_option maxHeartbeats 2000000 in
theorem civil_days_id (k : DateKey) (h : ValidKey k) : civilFromDays (daysFromCivil k) = k := by
  obtain ⟨y, m, d⟩ := k
  obtain ⟨hmlo, hmhi, hd1, hd2⟩ := h
  dsimp only at hmlo hmhi hd1 hd2
  simp only [daysInMonth, leapYear] at hd2
  interval_cases m <;> simp only [daysFromCivil]
  · refine Eq.trans (civilFromDays_decomp _ _ _ _ rfl ?_ ?_ ?_ ?_) ?_
    · split_ifs <;> omega
    · split_ifs <;> omega
    · omega
    · (try split_ifs at hd2) <;> omega
    · have hmp : (5 * ((153 * ((1 + 9) % 12) + 2) / 5 + d - 1) + 2) / 153 = 10 := by omega
      simp only [hmp, DateKey.mk.injEq]
      (try split_ifs at hd2) <;> split_ifs <;> omega
  · refine Eq.trans (civilFromDays_decomp _ _ _ _ rfl ?_ ?_ ?_ ?_) ?_
    · split_ifs <;> omega
    · split_ifs <;> omega
    · omega
    · (try split_ifs at hd2) <;> omega
    · have hmp : (5 * ((153 * ((2 + 9) % 12) + 2) / 5 + d - 1) + 2) / 153 = 11 := by omega
      simp only [hmp, DateKey.mk.injEq]
      (try split_ifs at hd2) <;> split_ifs <;> omega
  · refine Eq.trans (civilFromDays_decomp _ _ _ _ rfl ?_ ?_ ?_ ?_) ?_
    · split_ifs <;> omega
    · split_ifs <;> omega
    · omega
    · (try split_ifs at hd2) <;> omega
    · have hmp : (5 * ((153 * ((3 + 9) % 12) + 2) / 5 + d - 1) + 2) / 153 = 0 := by omega
      simp only [hmp, DateKey.mk.injEq]
      (try split_ifs at hd2) <;> split_ifs <;> omega
  · refine Eq.trans (civilFromDays_decomp _ _ _ _ rfl ?_ ?_ ?_ ?_) ?_
    · split_ifs <;> omega
    · split_ifs <;> omega
    · omega
    · (try split_ifs at hd2) <;> omega
    · have hmp : (5 * ((153 * ((4 + 9) % 12) + 2) / 5 + d - 1) + 2) / 153 = 1 := by omega
      simp only [hmp, DateKey.mk.injEq]
      (try split_ifs at hd2) <;> split_ifs <;> omega
  · refine Eq.trans (civilFromDays_decomp _ _ _ _ rfl ?_ ?_ ?_ ?_) ?_
    · split_ifs <;> omega
    · split_ifs <;> omega
    · omega
    · (try split_ifs at hd2) <;> omega
    · have hmp : (5 * ((153 * ((5 + 9) % 12) + 2) / 5 + d - 1) + 2) / 153 = 2 := by omega
      simp only [hmp, DateKey.mk.injEq]
      (try split_ifs at hd2) <;> split_ifs <;> omega
  · refine Eq.trans (civilFromDays_decomp _ _ _ _ rfl ?_ ?_ ?_ ?_) ?_
    · split_ifs <;> omega
    · split_ifs <;> omega
    · omega
    · (try split_ifs at hd2) <;> omega
    · have hmp : (5 * ((153 * ((6 + 9) % 12) + 2) / 5 + d - 1) + 2) / 153 = 3 := by omega
      simp only [hmp, DateKey.mk.injEq]
      (try split_ifs at hd2) <;> split_ifs <;> omega
  · refine Eq.trans (civilFromDays_decomp _ _ _ _ rfl ?_ ?_ ?_ ?_) ?_
    · split_ifs <;> omega
    · split_ifs <;> omega
    · omega
    · (try split_ifs at hd2) <;> omega
    · have hmp : (5 * ((153 * ((7 + 9) % 12) + 2) / 5 + d - 1) + 2) / 153 = 4 := by omega
      simp only [hmp, DateKey.mk.injEq]
      (try split_ifs at hd2) <;> split_ifs <;> omega
  · refine Eq.trans (civilFromDays_decomp _ _ _ _ rfl ?_ ?_ ?_ ?_) ?_
    · split_ifs <;> omega
    · split_ifs <;> omega
    · omega
    · (try split_ifs at hd2) <;> omega
    · have hmp : (5 * ((153 * ((8 + 9) % 12) + 2) / 5 + d - 1) + 2) / 153 = 5 := by omega
      simp only [hmp, DateKey.mk.injEq]
      (try split_ifs at hd2) <;> split_ifs <;> omega
  · refine Eq.trans (civilFromDays_decomp _ _ _ _ rfl ?_ ?_ ?_ ?_) ?_
    · split_ifs <;> omega
    · split_ifs <;> omega
    · omega
    · (try split_ifs at hd2) <;> omega
    · have hmp : (5 * ((153 * ((9 + 9) % 12) + 2) / 5 + d - 1) + 2) / 153 = 6 := by omega
      simp only [hmp, DateKey.mk.injEq]
      (try split_ifs at hd2) <;> split_ifs <;> omega
  · refine Eq.trans (civilFromDays_decomp _ _ _ _ rfl ?_ ?_ ?_ ?_) ?_
    · split_ifs <;> omega
    · split_ifs <;> omega
    · omega
    · (try split_ifs at hd2) <;> omega
    · have hmp : (5 * ((153 * ((10 + 9) % 12) + 2) / 5 + d - 1) + 2) / 153 = 7 := by omega
      simp only [hmp, DateKey.mk.injEq]
      (try split_ifs at hd2) <;> split_ifs <;> omega
  · refine Eq.trans (civilFromDays_decomp _ _ _ _ rfl ?_ ?_ ?_ ?_) ?_
    · split_ifs <;> omega
    · split_ifs <;> omega
    · omega
    · (try split_ifs at hd2) <;> omega
    · have hmp : (5 * ((153 * ((11 + 9) % 12) + 2) / 5 + d - 1) + 2) / 153 = 8 := by omega
      simp only [hmp, DateKey.mk.injEq]
      (try split_ifs at hd2) <;> split_ifs <;> omega
  · refine Eq.trans (civilFromDays_decomp _ _ _ _ rfl ?_ ?_ ?_ ?_) ?_
    · split_ifs <;> omega
    · split_ifs <;> omega
    · omega
    · (try split_ifs at hd2) <;> omega
    · have hmp : (5 * ((153 * ((12 + 9) % 12) + 2) / 5 + d - 1) + 2) / 153 = 9 := by omega
      simp only [hmp, DateKey.mk.injEq]
      (try split_ifs at hd2) <;> split_ifs <;> omega

/-- Every day number projects to a calendrically valid civil date. -/
theorem civil_valid (z : Int) : ValidKey (civilFromDays z) := by
  have hdr := doe_range z
  have hspec := yoe_doe_spec (doeOfDays z) hdr.1 hdr.2
  obtain ⟨mp, hmp, hmp0, hmp1⟩ :
      ∃ mp, (5 * doyOfDoe (doeOfDays z) + 2) / 153 = mp ∧ 0 ≤ mp ∧ mp ≤ 11 :=
    ⟨_, rfl, by omega, by omega⟩
  simp only [civilFromDays, hmp, ValidKey, daysInMonth, leapYear]
  interval_cases mp <;> split_ifs <;> refine ⟨by omega, by omega, by omega, by omega⟩

theorem calNextDay_valid (k : DateKey) (h : ValidKey k) : ValidKey (calNextDay k) := by
  obtain ⟨y, m, d⟩ := k
  obtain ⟨hmlo, hmhi, hd1, hd2⟩ := h
  dsimp only at hmlo hmhi hd1 hd2
  unfold calNextDay
  dsimp only
  split_ifs with h1 h2 <;>
    (simp only [ValidKey, daysInMonth, leapYear] at * <;> dsimp only <;>
      (try split_ifs) <;> omega)

theorem calPrevDay_valid (k : DateKey) (h : ValidKey k) : ValidKey (calPrevDay k) := by
  obtain ⟨y, m, d⟩ := k
  obtain ⟨hmlo, hmhi, hd1, hd2⟩ := h
  dsimp only at hmlo hmhi hd1 hd2
  unfold calPrevDay
  dsimp only
  split_ifs with h1 h2 <;>
    (simp only [ValidKey, daysInMonth, leapYear] at * <;> dsimp only <;>
      (try split_ifs) <;> omega)

set_option maxHeartbeats 2000000 in
/-- Stepping to the calendar successor advances the day number by exactly one. -/
theorem daysFromCivil_calNextDay (k : DateKey) (h : ValidKey k) :
    daysFromCivil (calNextDay k) = daysFromCivil k + 1 := by
  obtain ⟨y, m, d⟩ := k
  obtain ⟨hmlo, hmhi, hd1, hd2⟩ := h
  dsimp only at hmlo hmhi hd1 hd2
  simp only [daysInMonth, leapYear] at hd2
  interval_cases m <;>
    simp only [calNextDay, daysInMonth, leapYear] <;>
    (try dsimp only) <;>
    split_ifs at * <;>
    simp only [daysFromCivil] <;>
    (try dsimp only) <;>
    (try split_ifs) <;> omega

set_option maxHeartbeats 2000000 in
/-- Stepping to the calendar predecessor decreases the day number by exactly one. -/
theorem daysFromCivil_calPrevDay (k : DateKey) (h : ValidKey k) :
    daysFromCivil (calPrevDay k) = daysFromCivil k - 1 := by
  obtain ⟨y, m, d⟩ := k
  obtain ⟨hmlo, hmhi, hd1, hd2⟩ := h
  dsimp only at hmlo hmhi hd1 hd2
  simp only [daysInMonth, leapYear] at hd2
  interval_cases m <;>
    simp only [calPrevDay, daysInMonth, leapYear] <;>
    (try dsimp only) <;>
    split_ifs at * <;>
    simp only [daysFromCivil] <;>
    (try dsimp only) <;>
    (try split_ifs) <;> omega

theorem calNextDay_calPrevDay (k : DateKey) (h : ValidKey k) :
    calNextDay (calPrevDay k) = k := by
  have h1 := calPrevDay_valid k h
  have h2 := daysFromCivil_calNextDay _ h1
  have h3 := daysFromCivil_calPrevDay k h
  have h4 : daysFromCivil (calNextDay (calPrevDay k)) = daysFromCivil k := by omega
  have h5 := civil_days_id _ (calNextDay_valid _ h1)
  have h6 := civil_days_id k h
  rw [← h5, h4, h6]

theorem keyLt_calNextDay (k : DateKey) (h : ValidKey k) : keyLt k (calNextDay k) := by
  obtain ⟨y, m, d⟩ := k
  obtain ⟨hmlo, hmhi, hd1, hd2⟩ := h
  dsimp only at hmlo hmhi hd1 hd2
  simp only [calNextDay, keyLt]
  split_ifs <;> dsimp only <;> omega

theorem keyLe_trans_lt (a b c : DateKey) (h1 : keyLe a b) (h2 : keyLt b c) : keyLe a c := by
  obtain ⟨ay, am, ad⟩ := a; obtain ⟨by', bm, bd⟩ := b; obtain ⟨cy, cm, cd⟩ := c
  simp only [keyLe, keyLt, DateKey.mk.injEq] at *
  omega

theorem keyLe_antisymm (a b : DateKey) (h1 : keyLe a b) (h2 : keyLe b a) : a = b := by
  obtain ⟨ay, am, ad⟩ := a; obtain ⟨by', bm, bd⟩ := b
  simp only [keyLe, keyLt, DateKey.mk.injEq] at *
  omega

/-- Every day number at or after a valid key's day number projects to a key
lexicographically at or after it. -/
theorem keyLe_civil_of_days_le (a : DateKey) (ha : ValidKey a) :
    ∀ n : Int, daysFromCivil a ≤ n → keyLe a (civilFromDays n) := by
  refine Int.le_induction ?_ ?_
  · rw [civil_days_id a ha]; exact Or.inr rfl
  · intro n _ ih
    have hv := civil_valid n
    have h1 := daysFromCivil_calNextDay _ hv
    rw [days_civil_id] at h1
    have h2 : civilFromDays (n + 1) = calNextDay (civilFromDays n) := by
      rw [← h1, civil_days_id _ (calNextDay_valid _ hv)]
    rw [h2]
    exact keyLe_trans_lt _ _ _ ih (keyLt_calNextDay _ hv)

/-- Lexicographic comparison of valid keys coincides with day-number comparison. -/
theorem keyLe_iff_days_le (a b : DateKey) (ha : ValidKey a) (hb : ValidKey b) :
    keyLe a b ↔ daysFromCivil a ≤ daysFromCivil b := by
  constructor
  · intro h
    by_contra hgt
    push_neg at hgt
    have h1 := keyLe_civil_of_days_le b hb (daysFromCivil a) (by omega)
    rw [civil_days_id a ha] at h1
    have := keyLe_antisymm a b h h1
    subst this
    omega
  · intro h
    have h1 := keyLe_civil_of_days_le a ha (daysFromCivil b) h
    rwa [civil_days_id b hb] at h1

-- DST sanity checks (2025: DST ran March 9 -- November 2)
example : etOffset (20103 * 1440 + 720) = -300 := by decide
example : daysFromCivil ⟨2025, 7, 4⟩ = 20273 := by decide
example : etOffset (20273 * 1440 + 720) = -240 := by decide
example : etOffset (daysFromCivil ⟨2025, 3, 9⟩ * 1440 + 419) = -300 := by decide
example : etOffset (daysFromCivil ⟨2025, 3, 9⟩ * 1440 + 420) = -240 := by decide
example : etOffset (daysFromCivil ⟨2025, 11, 2⟩ * 1440 + 359) = -240 := by decide
example : etOffset (daysFromCivil ⟨2025, 11, 2⟩ * 1440 + 360) = -300 := by decide

theorem etOffset_ne_zero (t : Int) : etOffset t ≠ 0 := by
  unfold etOffset; split_ifs <;> omega

example : getETDateString (20104 * 1440 + 180) = ⟨2025, 1, 15⟩ := by decide
example : getETDateString (20104 * 1440 + 720) = ⟨2025, 1, 16⟩ := by decide

example : previousDayKey (-300) ⟨2025, 3, 1⟩ = ⟨2025, 2, 28⟩ := by decide
example : nextDayKey (-300) ⟨2024, 12, 31⟩ = ⟨2025, 1, 1⟩ := by decide
set_option maxRecDepth 10000 in
example : nextDayKey 780 (previousDayKey 780 ⟨2025, 1, 15⟩) = ⟨2025, 1, 13⟩ := by decide

theorem matchesSearch_empty (name : String) : matchesSearch "" name = true := by
  unfold matchesSearch
  refine decide_eq_true ⟨[], name.toList.map Char.toLower, ?_⟩
  have h : ("".toList.map Char.toLower) = ([] : List Char) := by decide
  rw [h]
  simp

/-- The day number is affine in the day-of-month component. -/
theorem daysFromCivil_day_shift (k : DateKey) (x : Int) :
    daysFromCivil ⟨k.y, k.m, k.d + x⟩ = daysFromCivil k + x := by
  obtain ⟨y, m, d⟩ := k
  simp only [daysFromCivil]
  split_ifs <;> omega

theorem keyLt_not_keyLe (a b : DateKey) (h : keyLt a b) : ¬ keyLe b a := by
  obtain ⟨ay, am, ad⟩ := a; obtain ⟨by', bm, bd⟩ := b
  simp only [keyLt, keyLe, DateKey.mk.injEq] at *
  omega

theorem etOffset_cases (t : Int) : etOffset t = -240 ∨ etOffset t = -300 := by
  unfold etOffset; split_ifs <;> omega

/-- The client date test against a single bound, reduced to day numbers:
the parsed filter bound is local midnight of the entered key. -/
theorem clientBound_eval (L : Int) (k : DateKey) (x : Int) (hx : 0 ≤ x) (hx2 : x < 1440) :
    jsMakeLocalDate L (jsLocalTriple L (jsParseLocal L k x)) = 1440 * daysFromCivil k - L := by
  unfold jsMakeLocalDate jsLocalTriple jsParseLocal
  rw [show (1440 * daysFromCivil k + x - L + L) / 1440 = daysFromCivil k by omega,
    days_civil_id]

theorem paymentDateOnly_eval (L t : Int) :
    jsMakeLocalDate L (jsLocalTriple L t) = 1440 * ((t + L) / 1440) - L := by
  unfold jsMakeLocalDate jsLocalTriple
  rw [days_civil_id]

/-- The client predicate with both date bounds present, in day-number form. -/
theorem clientKeep_eval (L : Int) (s m : String) (F T : DateKey) (p : Payment) :
    clientKeep L ⟨s, some F, some T, m⟩ p =
      ((decide (daysFromCivil F ≤ (p.timestamp + L) / 1440) &&
        decide ((p.timestamp + L) / 1440 ≤ daysFromCivil T)) &&
       (matchesSearch s p.client_name &&
        ((m == "") || (p.payment_method == m)))) := by
  unfold clientKeep
  simp only [Option.isSome_some, Bool.or_self, if_true,
    clientBound_eval L F 0 (by omega) (by omega),
    clientBound_eval L T 1439 (by omega) (by omega),
    paymentDateOnly_eval]
  have hd1 : decide (1440 * daysFromCivil F - L ≤ 1440 * ((p.timestamp + L) / 1440) - L) =
      decide (daysFromCivil F ≤ (p.timestamp + L) / 1440) := decide_eq_decide.mpr (by omega)
  have hd2 : decide (1440 * ((p.timestamp + L) / 1440) - L ≤ 1440 * daysFromCivil T - L) =
      decide ((p.timestamp + L) / 1440 ≤ daysFromCivil T) := decide_eq_decide.mpr (by omega)
  rw [hd1, hd2]
  rcases Decidable.em (daysFromCivil F ≤ (p.timestamp + L) / 1440) with hF | hF <;>
    rcases Decidable.em ((p.timestamp + L) / 1440 ≤ daysFromCivil T) with hT | hT <;>
    simp [hF, hT]

/-- The server predicate in day-number form, for valid filter keys. -/
theorem serverKeep_eval (F T : DateKey) (m : String) (p : Payment)
    (hF : ValidKey F) (hT : ValidKey T) :
    serverKeep F T m p =
      ((decide (daysFromCivil F ≤ daysFromCivil (getETDateString p.timestamp)) &&
        decide (daysFromCivil (getETDateString p.timestamp) ≤ daysFromCivil T)) &&
       ((m == "") || (p.payment_method == m))) := by
  have hE : ValidKey (getETDateString p.timestamp) := civil_valid _
  simp only [serverKeep]
  rw [show decide (keyLe F (getETDateString p.timestamp)) =
        decide (daysFromCivil F ≤ daysFromCivil (getETDateString p.timestamp)) from
      decide_eq_decide.mpr (keyLe_iff_days_le F _ hF hE),
    show decide (keyLe (getETDateString p.timestamp) T) =
        decide (daysFromCivil (getETDateString p.timestamp) ≤ daysFromCivil T) from
      decide_eq_decide.mpr (keyLe_iff_days_le _ T hE hT)]

/-- The local calendar day number of an instant whose local date coincides with
its ET date is the ET date's day number. -/
theorem local_day_eq_of_triple_eq (L t : Int)
    (h : jsLocalTriple L t = getETDateString t) :
    (t + L) / 1440 = daysFromCivil (getETDateString t) := by
  have h2 : daysFromCivil (jsLocalTriple L t) = (t + L) / 1440 := days_civil_id _
  rw [h] at h2
  omega

theorem previousDayKey_eval (L : Int) (k : DateKey) (hk : ValidKey k)
    (h1 : -720 < L) (h2 : L ≤ 720) :
    previousDayKey L k = civilFromDays (daysFromCivil k - 1) := by
  simp only [previousDayKey, jsParseLocal, jsLocalTriple]
  rw [show 1440 * daysFromCivil k + 720 - L + L = 1440 * daysFromCivil k + 720 by omega,
    show (1440 * daysFromCivil k + 720) / 1440 = daysFromCivil k by omega,
    civil_days_id k hk,
    show k.d - 1 = k.d + (-1) by omega,
    daysFromCivil_day_shift k (-1)]
  congr 1
  omega

theorem nextDayKey_eval (L : Int) (k : DateKey) (hk : ValidKey k)
    (h1 : -720 < L) (h2 : L ≤ 720) :
    nextDayKey L k = civilFromDays (daysFromCivil k + 1) := by
  simp only [nextDayKey, jsParseLocal, jsLocalTriple]
  rw [show 1440 * daysFromCivil k + 720 - L + L = 1440 * daysFromCivil k + 720 by omega,
    show (1440 * daysFromCivil k + 720) / 1440 = daysFromCivil k by omega,
    civil_days_id k hk,
    daysFromCivil_day_shift k 1]
  congr 1
  omega

/-- C3: the timestamp round trip through `getDateTimeLocalValueInET` and
`convertLocalDateTimeToUTC` does not return the original instant: whatever
the browser zone offset `L`, it returns the ET wall clock reinterpreted as
UTC, i.e. `t + etOffset t`, which differs from `t` by 4-5 hours. The offset
trick in `convertLocalDateTimeToUTC` measures the browser-local offset (which
cancels against the local parse) instead of the Eastern offset. -/
theorem convert_roundtrip_shifts_by_et_offset (t L : Int) :
    convertLocalDateTimeToUTC L (getDateTimeLocalValueInET t) = t + etOffset t ∧
    t + etOffset t ≠ t := by
  constructor
  · unfold convertLocalDateTimeToUTC getDateTimeLocalValueInET
    dsimp only
    simp only [days_civil_id]
    omega
  · have := etOffset_ne_zero t
    omega

theorem summary_fold_invariant (l : List Payment) (acc : Summary)
    (h : ∀ p ∈ l, p.payment_method = "Cash" ∨ p.payment_method = "Zelle" ∨
      p.payment_method = "Check" ∨ p.payment_method = "Booker CC")
    (hacc : acc.total = acc.cash + acc.zelle + acc.check + acc.bookerCC) :
    (l.foldl summaryStep acc).total =
      (l.foldl summaryStep acc).cash + (l.foldl summaryStep acc).zelle +
      (l.foldl summaryStep acc).check + (l.foldl summaryStep acc).bookerCC := by
  induction l generalizing acc with
  | nil => simpa using hacc
  | cons p rest ih =>
    refine ih _ (fun q hq => h q (List.mem_cons_of_mem _ hq)) ?_
    rcases h p (List.mem_cons_self _ _) with h1 | h1 | h1 | h1 <;>
      simp [summaryStep, h1] <;> omega

theorem report_fold_invariant (l : List Payment) (acc : Summary)
    (h : ∀ p ∈ l, p.payment_method = "Cash" ∨ p.payment_method = "Zelle" ∨
      p.payment_method = "Check" ∨ p.payment_method = "Booker CC")
    (hacc : acc.total = acc.cash + acc.zelle + acc.check + acc.bookerCC) :
    (l.foldl reportSummaryStep acc).total =
      (l.foldl reportSummaryStep acc).cash + (l.foldl reportSummaryStep acc).zelle +
      (l.foldl reportSummaryStep acc).check + (l.foldl reportSummaryStep acc).bookerCC := by
  induction l generalizing acc with
  | nil => simpa using hacc
  | cons p rest ih =>
    refine ih _ (fun q hq => h q (List.mem_cons_of_mem _ hq)) ?_
    rcases h p (List.mem_cons_self _ _) with h1 | h1 | h1 | h1 <;>
      simp [reportSummaryStep, h1] <;> omega

/-- C4: when every record's payment method is one of Cash, Zelle, Check or
Booker CC (the database check constraint), `total = cash + zelle + check +
bookerCC` holds for the dashboard summary and for the report summary. -/
theorem summary_total_is_sum_of_methods (l : List Payment)
    (h : ∀ p ∈ l, p.payment_method = "Cash" ∨ p.payment_method = "Zelle" ∨
      p.payment_method = "Check" ∨ p.payment_method = "Booker CC") :
    (summaryOf l).total =
      (summaryOf l).cash + (summaryOf l).zelle + (summaryOf l).check + (summaryOf l).bookerCC ∧
    (reportSummaryOf l).total =
      (reportSummaryOf l).cash + (reportSummaryOf l).zelle +
      (reportSummaryOf l).check + (reportSummaryOf l).bookerCC :=
  ⟨summary_fold_invariant l _ h rfl, report_fold_invariant l _ h rfl⟩

theorem summary_total_is_sum_of_methods_witness :
    (summaryOf [⟨"1", "Ann", "Cash", 10000, 28949040⟩, ⟨"2", "Bob", "Zelle", 5000, 28949040⟩,
        ⟨"3", "Cyd", "Check", -2000, 28949040⟩]).total =
      (summaryOf [⟨"1", "Ann", "Cash", 10000, 28949040⟩, ⟨"2", "Bob", "Zelle", 5000, 28949040⟩,
        ⟨"3", "Cyd", "Check", -2000, 28949040⟩]).cash +
      (summaryOf [⟨"1", "Ann", "Cash", 10000, 28949040⟩, ⟨"2", "Bob", "Zelle", 5000, 28949040⟩,
        ⟨"3", "Cyd", "Check", -2000, 28949040⟩]).zelle +
      (summaryOf [⟨"1", "Ann", "Cash", 10000, 28949040⟩, ⟨"2", "Bob", "Zelle", 5000, 28949040⟩,
        ⟨"3", "Cyd", "Check", -2000, 28949040⟩]).check +
      (summaryOf [⟨"1", "Ann", "Cash", 10000, 28949040⟩, ⟨"2", "Bob", "Zelle", 5000, 28949040⟩,
        ⟨"3", "Cyd", "Check", -2000, 28949040⟩]).bookerCC ∧
    (reportSummaryOf [⟨"1", "Ann", "Cash", 10000, 28949040⟩, ⟨"2", "Bob", "Zelle", 5000, 28949040⟩,
        ⟨"3", "Cyd", "Check", -2000, 28949040⟩]).total =
      (reportSummaryOf [⟨"1", "Ann", "Cash", 10000, 28949040⟩, ⟨"2", "Bob", "Zelle", 5000, 28949040⟩,
        ⟨"3", "Cyd", "Check", -2000, 28949040⟩]).cash +
      (reportSummaryOf [⟨"1", "Ann", "Cash", 10000, 28949040⟩, ⟨"2", "Bob", "Zelle", 5000, 28949040⟩,
        ⟨"3", "Cyd", "Check", -2000, 28949040⟩]).zelle +
      (reportSummaryOf [⟨"1", "Ann", "Cash", 10000, 28949040⟩, ⟨"2", "Bob", "Zelle", 5000, 28949040⟩,
        ⟨"3", "Cyd", "Check", -2000, 28949040⟩]).check +
      (reportSummaryOf [⟨"1", "Ann", "Cash", 10000, 28949040⟩, ⟨"2", "Bob", "Zelle", 5000, 28949040⟩,
        ⟨"3", "Cyd", "Check", -2000, 28949040⟩]).bookerCC :=
  summary_total_is_sum_of_methods _ (by decide)

set_option maxRecDepth 10000 in
/-- C5 counterexample: in a browser zone at UTC+13 (as New Zealand daylight
time), previous-day navigation from 2025-01-15 followed by next-day
navigation lands on 2025-01-13, not back on 2025-01-15. -/
theorem next_prev_roundtrip_fails_at_utc13 :
    nextDayKey 780 (previousDayKey 780 ⟨2025, 1, 15⟩) ≠ ⟨2025, 1, 15⟩ ∧
    nextDayKey 780 (previousDayKey 780 ⟨2025, 1, 15⟩) = ⟨2025, 1, 13⟩ := by
  constructor
  · decide
  · decide

/-- C5 (amended): for every valid date key and any browser zone offsets in
(-12h, +12h] at the two steps (US Eastern is -300 or -240 minutes, so this
covers navigation across a DST transition), next-day after previous-day
returns the original key, across month and year boundaries. -/
theorem next_prev_roundtrip_bounded_zone (L1 L2 : Int) (k : DateKey) (hk : ValidKey k)
    (hL1a : -720 < L1) (hL1b : L1 ≤ 720) (hL2a : -720 < L2) (hL2b : L2 ≤ 720) :
    nextDayKey L2 (previousDayKey L1 k) = k := by
  rw [previousDayKey_eval L1 k hk hL1a hL1b,
    nextDayKey_eval L2 _ (civil_valid _) hL2a hL2b,
    days_civil_id,
    show daysFromCivil k - 1 + 1 = daysFromCivil k by omega,
    civil_days_id k hk]

set_option maxRecDepth 10000 in
theorem next_prev_roundtrip_bounded_zone_witness :
    nextDayKey (-240) (previousDayKey (-300) ⟨2025, 1, 1⟩) = ⟨2025, 1, 1⟩ :=
  next_prev_roundtrip_bounded_zone (-300) (-240) ⟨2025, 1, 1⟩ (by decide)
    (by decide) (by decide) (by decide) (by decide)

/-- C6: each mutation handler leaves the payments state unchanged when the
store call fails, and performs a full list() reload when it succeeds (the
visible subset and Summary are recomputed from the payments state, so they
follow the reloaded list); a failed reload also leaves the state unchanged. -/
theorem mutation_handlers_reload_on_success_only
    (s data : List Payment) (e : String) (lst : Except String (List Payment)) (p : Payment) :
    handleAddPayment s (.error e) lst = s ∧
    handleAddPayment s (.ok ()) lst = loadPayments s lst ∧
    handleAddPayment s (.ok ()) (.ok data) = data ∧
    handleAddPayment s (.ok ()) (.error e) = s ∧
    handleUpdatePayment (some p) s (.error e) lst = s ∧
    handleUpdatePayment (some p) s (.ok ()) lst = loadPayments s lst ∧
    handleUpdatePayment (some p) s (.ok ()) (.ok data) = data ∧
    handleUpdatePayment none s (.ok ()) lst = s ∧
    handleDeletePayment s (.error e) lst = s ∧
    handleDeletePayment s (.ok ()) lst = loadPayments s lst ∧
    handleDeletePayment s (.ok ()) (.ok data) = data :=
  ⟨rfl, rfl, rfl, rfl, rfl, rfl, rfl, rfl, rfl, rfl, rfl⟩

/-- C9 counterexample: for the single-date range 2025-01-01 the download
filename is `payment-report-2025-01-01.html`, not `report-2025-01-01`. -/
theorem report_filename_not_bare_report_form :
    reportFilename "2025-01-01" "2025-01-01" = "payment-report-2025-01-01.html" ∧
    reportFilename "2025-01-01" "2025-01-01" ≠ "report-2025-01-01" := by
  constructor
  · rfl
  · decide

/-- C9 (amended): the download filename is derived from the resolved date
range, as `payment-report-<date>.html` when the resolved bounds agree and
`payment-report-<from>-to-<to>.html` when they differ. -/
theorem report_filename_from_resolved_range (dateFrom dateTo today : String) :
    (resolveDate dateFrom today = resolveDate dateTo today →
      reportFilename (resolveDate dateFrom today) (resolveDate dateTo today) =
        "payment-report-" ++ resolveDate dateFrom today ++ ".html") ∧
    (resolveDate dateFrom today ≠ resolveDate dateTo today →
      reportFilename (resolveDate dateFrom today) (resolveDate dateTo today) =
        "payment-report-" ++ resolveDate dateFrom today ++ "-to-" ++
          resolveDate dateTo today ++ ".html") := by
  constructor
  · intro h
    unfold reportFilename
    rw [if_pos (by exact beq_iff_eq.mpr h)]
  · intro h
    unfold reportFilename
    rw [if_neg (by simp [h])]

theorem report_filename_from_resolved_range_witness :
    reportFilename (resolveDate "" "2025-01-02") (resolveDate "2025-01-03" "2025-01-02") =
      "payment-report-" ++ resolveDate "" "2025-01-02" ++ "-to-" ++
        resolveDate "2025-01-03" "2025-01-02" ++ ".html" :=
  (report_filename_from_resolved_range "" "2025-01-03" "2025-01-02").2 (by decide)

set_option maxRecDepth 10000 in
/-- C10 counterexample: in a browser zone at UTC+13, previous-day navigation
from 2025-01-15 sets both bounds to 2025-01-13 -- two days back, not the
single previous day 2025-01-14. -/
theorem day_navigation_skips_at_utc13 :
    goToPreviousDay 780 ⟨"", some ⟨2025, 1, 15⟩, some ⟨2025, 1, 15⟩, ""⟩ =
      ⟨"", some ⟨2025, 1, 13⟩, some ⟨2025, 1, 13⟩, ""⟩ ∧
    calPrevDay ⟨2025, 1, 15⟩ = ⟨2025, 1, 14⟩ := by
  decide

/-- C10 (amended): with a non-empty dateFrom and a browser zone offset in
(-12h, +12h] (in particular US Eastern), previous/next-day navigation sets
both dateFrom and dateTo to the calendar day before/after the current
dateFrom, collapsing any wider range; with an empty dateFrom both actions
leave the criteria unchanged. -/
theorem day_navigation_sets_single_adjacent_day (L : Int) (c : Criteria) (k : DateKey)
    (hk : ValidKey k) (hL1 : -720 < L) (hL2 : L ≤ 720) :
    (c.dateFrom = some k →
      goToPreviousDay L c = { c with dateFrom := some (calPrevDay k), dateTo := some (calPrevDay k) } ∧
      goToNextDay L c = { c with dateFrom := some (calNextDay k), dateTo := some (calNextDay k) }) ∧
    (c.dateFrom = none → goToPreviousDay L c = c ∧ goToNextDay L c = c) := by
  have hprev : previousDayKey L k = calPrevDay k := by
    rw [previousDayKey_eval L k hk hL1 hL2,
      show daysFromCivil k - 1 = daysFromCivil (calPrevDay k) by
        rw [daysFromCivil_calPrevDay k hk],
      civil_days_id _ (calPrevDay_valid k hk)]
  have hnext : nextDayKey L k = calNextDay k := by
    rw [nextDayKey_eval L k hk hL1 hL2,
      show daysFromCivil k + 1 = daysFromCivil (calNextDay k) by
        rw [daysFromCivil_calNextDay k hk],
      civil_days_id _ (calNextDay_valid k hk)]
  constructor
  · intro h
    simp only [goToPreviousDay, goToNextDay, h, hprev, hnext]
    exact ⟨trivial, trivial⟩
  · intro h
    simp only [goToPreviousDay, goToNextDay, h]
    exact ⟨trivial, trivial⟩

set_option maxRecDepth 10000 in
theorem day_navigation_sets_single_adjacent_day_witness :
    goToPreviousDay (-300) ⟨"", some ⟨2025, 3, 1⟩, some ⟨2025, 3, 31⟩, "Cash"⟩ =
      ⟨"", some (calPrevDay ⟨2025, 3, 1⟩), some (calPrevDay ⟨2025, 3, 1⟩), "Cash"⟩ ∧
    goToNextDay (-300) ⟨"", some ⟨2025, 3, 1⟩, some ⟨2025, 3, 31⟩, "Cash"⟩ =
      ⟨"", some (calNextDay ⟨2025, 3, 1⟩), some (calNextDay ⟨2025, 3, 1⟩), "Cash"⟩ :=
  (day_navigation_sets_single_adjacent_day (-300)
    ⟨"", some ⟨2025, 3, 1⟩, some ⟨2025, 3, 31⟩, "Cash"⟩ ⟨2025, 3, 1⟩
    (by decide) (by decide) (by decide)).1 rfl

theorem filter_eq_nil_of_false {α : Type} (l : List α) (f : α → Bool)
    (h : ∀ a ∈ l, f a = false) : l.filter f = [] := by
  induction l with
  | nil => rfl
  | cons a t ih =>
    rw [List.filter_cons, h a (List.mem_cons_self a t)]
    exact ih (fun b hb => h b (List.mem_cons_of_mem _ hb))

/-- C8: when dateFrom is lexicographically after dateTo, the client filter
engine still evaluates (no validation error is possible: it is a total
function) and selects nothing: the visible subset is empty, its count is 0,
and the Summary over it is all zeros. -/
theorem inverted_range_yields_empty_subset (L : Int) (s method : String)
    (dateFrom dateTo : DateKey) (hF : ValidKey dateFrom) (hT : ValidKey dateTo)
    (hlt : keyLt dateTo dateFrom) (R : List Payment) :
    filteredPayments L ⟨s, some dateFrom, some dateTo, method⟩ R = [] ∧
    summaryOf (filteredPayments L ⟨s, some dateFrom, some dateTo, method⟩ R) = ⟨0, 0, 0, 0, 0⟩ ∧
    (filteredPayments L ⟨s, some dateFrom, some dateTo, method⟩ R).length = 0 := by
  have hdays : daysFromCivil dateTo < daysFromCivil dateFrom := by
    have h1 := keyLt_not_keyLe _ _ hlt
    rcases le_or_lt (daysFromCivil dateFrom) (daysFromCivil dateTo) with h | h
    · exact absurd ((keyLe_iff_days_le dateFrom dateTo hF hT).mpr h) h1
    · exact h
  have hnone : ∀ p ∈ R, clientKeep L ⟨s, some dateFrom, some dateTo, method⟩ p = false := by
    intro p _
    rw [clientKeep_eval]
    rcases Decidable.em (daysFromCivil dateFrom ≤ (p.timestamp + L) / 1440) with ha | ha
    · rcases Decidable.em ((p.timestamp + L) / 1440 ≤ daysFromCivil dateTo) with hb | hb
      · omega
      · simp [ha, hb]
    · simp [ha]
  have hempty : filteredPayments L ⟨s, some dateFrom, some dateTo, method⟩ R = [] :=
    filter_eq_nil_of_false R _ hnone
  exact ⟨hempty, by rw [hempty]; rfl, by rw [hempty]; rfl⟩

theorem inverted_range_yields_empty_subset_witness :
    filteredPayments (-300) ⟨"an", some ⟨2025, 1, 20⟩, some ⟨2025, 1, 10⟩, "Zelle"⟩
        [⟨"1", "Ann", "Zelle", 5000, 28949940⟩] = [] ∧
    summaryOf (filteredPayments (-300) ⟨"an", some ⟨2025, 1, 20⟩, some ⟨2025, 1, 10⟩, "Zelle"⟩
        [⟨"1", "Ann", "Zelle", 5000, 28949940⟩]) = ⟨0, 0, 0, 0, 0⟩ ∧
    (filteredPayments (-300) ⟨"an", some ⟨2025, 1, 20⟩, some ⟨2025, 1, 10⟩, "Zelle"⟩
        [⟨"1", "Ann", "Zelle", 5000, 28949940⟩]).length = 0 :=
  inverted_range_yields_empty_subset (-300) "an" "Zelle" ⟨2025, 1, 20⟩ ⟨2025, 1, 10⟩
    (by decide) (by decide) (by decide) _

set_option maxRecDepth 10000 in
/-- C1 counterexample: for a record at 2025-01-16T03:00Z (22:00 ET on
2025-01-15) and the single-day range 2025-01-15, the server-side report
filter selects the record while the client filter running in a UTC browser
(offset 0) selects nothing: the two paths disagree on a boundary record. -/
theorem client_and_report_filters_disagree_in_utc_browser :
    serverFilteredPayments ⟨2025, 1, 15⟩ ⟨2025, 1, 15⟩ ""
        [⟨"p1", "Ann", "Cash", 10000, 28949940⟩] =
      [⟨"p1", "Ann", "Cash", 10000, 28949940⟩] ∧
    filteredPayments 0 ⟨"", some ⟨2025, 1, 15⟩, some ⟨2025, 1, 15⟩, ""⟩
        [⟨"p1", "Ann", "Cash", 10000, 28949940⟩] = [] := by
  decide

/-- C1 (amended): the report filter and the client filter select exactly the
same records on those record sets whose browser-local calendar dates agree
with their Eastern-time calendar dates (as in a browser running in US
Eastern); the UTC-browser counterexample shows they can disagree otherwise. -/
theorem client_filter_matches_report_filter (L : Int) (dateFrom dateTo : DateKey)
    (method : String) (R : List Payment) (hF : ValidKey dateFrom) (hT : ValidKey dateTo)
    (hloc : ∀ p ∈ R, jsLocalTriple L p.timestamp = getETDateString p.timestamp) :
    filteredPayments L ⟨"", some dateFrom, some dateTo, method⟩ R =
      serverFilteredPayments dateFrom dateTo method R := by
  unfold filteredPayments serverFilteredPayments
  apply List.filter_congr
  intro p hp
  rw [clientKeep_eval, serverKeep_eval _ _ _ _ hF hT, matchesSearch_empty,
    local_day_eq_of_triple_eq L p.timestamp (hloc p hp)]
  simp

set_option maxRecDepth 10000 in
theorem client_filter_matches_report_filter_witness :
    filteredPayments (-300) ⟨"", some ⟨2025, 1, 15⟩, some ⟨2025, 1, 16⟩, ""⟩
        [⟨"p1", "Ann", "Cash", 10000, 28949940⟩, ⟨"p2", "Bob", "Zelle", 5000, 28950660⟩] =
      serverFilteredPayments ⟨2025, 1, 15⟩ ⟨2025, 1, 16⟩ ""
        [⟨"p1", "Ann", "Cash", 10000, 28949940⟩, ⟨"p2", "Bob", "Zelle", 5000, 28950660⟩] :=
  client_filter_matches_report_filter (-300) ⟨2025, 1, 15⟩ ⟨2025, 1, 16⟩ "" _
    (by decide) (by decide) (by decide)

set_option maxRecDepth 10000 in
/-- C2 counterexample: the record at 2025-01-16T03:00Z has Eastern-time date
2025-01-15, yet the client filter in a UTC browser (offset 0) excludes it
from the single day 2025-01-15 and includes it on 2025-01-16: the date
comparison is performed on the browser-local date, not the ET date. -/
theorem client_filter_uses_browser_local_date :
    getETDateString 28949940 = ⟨2025, 1, 15⟩ ∧
    clientKeep 0 ⟨"", some ⟨2025, 1, 15⟩, some ⟨2025, 1, 15⟩, ""⟩
      ⟨"p1", "Ann", "Cash", 10000, 28949940⟩ = false ∧
    clientKeep 0 ⟨"", some ⟨2025, 1, 16⟩, some ⟨2025, 1, 16⟩, ""⟩
      ⟨"p1", "Ann", "Cash", 10000, 28949940⟩ = true := by
  decide

/-- C2 (amended): whenever the browser-local calendar date of a record's
timestamp coincides with its Eastern-time calendar date (as in a US-Eastern
browser), the client filter with dateFrom = dateTo = the record's ET date
includes the record and with any other single valid date excludes it;
moreover an instant at 23:30 UTC of day D has ET date D itself (the ET
offset never shifts 23:30 UTC to the previous day), so the claim's premise
of a shift to D-1 cannot occur. -/
theorem et_date_single_day_filter (L : Int) (p : Payment) (d : DateKey) (hd : ValidKey d)
    (hloc : jsLocalTriple L p.timestamp = getETDateString p.timestamp) :
    (getETDateString p.timestamp = d →
      clientKeep L ⟨"", some d, some d, ""⟩ p = true) ∧
    (getETDateString p.timestamp ≠ d →
      clientKeep L ⟨"", some d, some d, ""⟩ p = false) ∧
    (∀ D : DateKey, ValidKey D → getETDateString (1440 * daysFromCivil D + 1410) = D) := by
  have hE : ValidKey (getETDateString p.timestamp) := civil_valid _
  have hX := local_day_eq_of_triple_eq L p.timestamp hloc
  refine ⟨?_, ?_, ?_⟩
  · intro h
    rw [clientKeep_eval, hX, h, matchesSearch_empty]
    simp
  · intro h
    rw [clientKeep_eval, hX]
    have hne : daysFromCivil (getETDateString p.timestamp) ≠ daysFromCivil d := by
      intro he
      apply h
      have h1 := civil_days_id _ hE
      have h2 := civil_days_id d hd
      rw [← h1, he, h2]
    rcases Decidable.em (daysFromCivil d ≤ daysFromCivil (getETDateString p.timestamp)) with ha | ha
    · rcases Decidable.em (daysFromCivil (getETDateString p.timestamp) ≤ daysFromCivil d) with hb | hb
      · exact absurd (by omega) hne
      · simp [ha, hb]
    · simp [ha]
  · intro D hD
    unfold getETDateString
    rcases etOffset_cases (1440 * daysFromCivil D + 1410) with h | h
    · rw [h, show (1440 * daysFromCivil D + 1410 + (-240)) / 1440 = daysFromCivil D by omega]
      exact civil_days_id D hD
    · rw [h, show (1440 * daysFromCivil D + 1410 + (-300)) / 1440 = daysFromCivil D by omega]
      exact civil_days_id D hD

set_option maxRecDepth 10000 in
theorem et_date_single_day_filter_witness :
    clientKeep (-300) ⟨"", some ⟨2025, 1, 15⟩, some ⟨2025, 1, 15⟩, ""⟩
      ⟨"p1", "Ann", "Cash", 10000, 28949940⟩ = true :=
  (et_date_single_day_filter (-300) ⟨"p1", "Ann", "Cash", 10000, 28949940⟩ ⟨2025, 1, 15⟩
    (by decide) (by decide)).1 (by decide)

/-- C7 (amended): for GET requests the endpoint returns a structured JSON 400
error exactly when dateFrom or dateTo is missing or present-but-empty; an
internal failure yields a structured JSON 500 echoing the offending dateFrom
and dateTo; otherwise it responds 200 with an HTML document. -/
theorem report_endpoint_status_contract (req : ReportRequest)
    (db : Except String (List Payment)) (hm : req.method = .GET) :
    ((reportHandler req db).status = 400 ↔
      (req.dateFrom.falsy = true ∨ req.dateTo.falsy = true)) ∧
    ((reportHandler req db).status = 400 →
      (reportHandler req db).contentType = some "application/json") ∧
    (∀ e, db = .error e → req.dateFrom.falsy = false → req.dateTo.falsy = false →
      reportHandler req db =
        ⟨500, some "application/json", .internalError e req.dateFrom req.dateTo⟩) ∧
    (∀ rows, db = .ok rows → req.dateFrom.falsy = false → req.dateTo.falsy = false →
      (reportHandler req db).status = 200 ∧
      (reportHandler req db).contentType = some "text/html") := by
  obtain ⟨method, dF, dT, pm⟩ := req
  dsimp only at hm
  subst hm
  refine ⟨?_, ?_, ?_, ?_⟩
  · cases dF <;> cases dT <;> cases db <;>
      simp [reportHandler, DateParam.falsy]
  · cases dF <;> cases dT <;> cases db <;>
      simp [reportHandler, DateParam.falsy]
  · intro e hdb h1 h2
    subst hdb
    cases dF <;> cases dT <;> simp_all [reportHandler, DateParam.falsy]
  · intro rows hdb h1 h2
    subst hdb
    cases dF <;> cases dT <;> simp_all [reportHandler, DateParam.falsy]

theorem report_endpoint_status_contract_witness :
    (reportHandler ⟨.GET, .val ⟨2025, 1, 1⟩, .val ⟨2025, 1, 2⟩, some "Cash"⟩
        (.ok [])).status = 200 ∧
    (reportHandler ⟨.GET, .val ⟨2025, 1, 1⟩, .val ⟨2025, 1, 2⟩, some "Cash"⟩
        (.ok [])).contentType = some "text/html" :=
  (report_endpoint_status_contract
    ⟨.GET, .val ⟨2025, 1, 1⟩, .val ⟨2025, 1, 2⟩, some "Cash"⟩ (.ok []) rfl).2.2.2
    [] rfl rfl rfl

/-- C7 counterexample: a GET request whose dateFrom parameter is present but
empty (`?dateFrom=&dateTo=2025-01-02`) receives status 400 even though
neither date parameter is missing: 400 responses are not limited to missing
parameters. -/
theorem report_endpoint_400_on_present_empty_param :
    (reportHandler ⟨.GET, .empty, .val ⟨2025, 1, 2⟩, none⟩ (.ok [])).status = 400 ∧
    (⟨.GET, .empty, .val ⟨2025, 1, 2⟩, none⟩ : ReportRequest).dateFrom ≠ .absent ∧
    (⟨.GET, .empty, .val ⟨2025, 1, 2⟩, none⟩ : ReportRequest).dateTo ≠ .absent := by
  decide

